import Mathlib

set_option autoImplicit false

/-
Verification of the bolt-backed core repository (src/lib/repository/bolt.go).

The store engine (boltdb) is modelled as two in-memory association buckets
(`users`, `checks`) from string keys to stored values; a bolt transaction is
atomic, so each operation is a pure function from the store state to a new
store state plus an optional error.  Stored bytes are modelled by the `Data`
type: a value is either a valid JSON encoding of a user, a valid JSON
encoding of a checks mapping, or undecodable bytes (`corrupt`), which is how
json.Marshal/Unmarshal behave on these record shapes (marshalling a record
never fails; unmarshalling fails exactly on bytes that do not encode the
expected shape, and round-trips otherwise).
-/

namespace Prchecklist

/-- Modelled from the spec: GitHubUser (package prchecklist, not under src/)
is a User record with an "integer identifier (primary key, stable, externally
issued), display login name, avatar reference". -/
structure GitHubUser where
  ID : Int
  Login : String
  AvatarURL : String
  deriving DecidableEq

/-- Modelled from the spec: Checks (package prchecklist, not under src/) is
"a mapping from an item key (string) to a set of user identifiers who have
checked that item", item order being insertion order; modelled as an
association list from item key to the list of checked user identifiers. -/
abbrev Checks := List (String × List Int)

/-- First-occurrence lookup of an item key in a checks mapping. -/
def Checks.lookupItem : Checks → String → Option (List Int)
  | [], _ => none
  | (k0, ids) :: rest, k => if k0 = k then some ids else Checks.lookupItem rest k

/-- Replace the checked-by list of an existing item key (first occurrence). -/
def Checks.updateItem : Checks → String → List Int → Checks
  | [], _, _ => []
  | (k0, ids0) :: rest, k, ids =>
    if k0 = k then (k0, ids) :: rest else (k0, ids0) :: Checks.updateItem rest k ids

/-- Whether user identifier id is in item k's checked-by set (an absent item
has the empty checked-by set). -/
def Checks.containsCheck (c : Checks) (k : String) (id : Int) : Bool :=
  ((Checks.lookupItem c k).getD []).contains id

/-- Modelled from the spec: Checks.Add (package prchecklist, not under src/)
adds the user to the item's checked-by set and reports whether state changed;
"Adding a user to an item that already contains them is a no-op (returns
unchanged)". -/
def Checks.Add (c : Checks) (k : String) (u : GitHubUser) : Checks × Bool :=
  match Checks.lookupItem c k with
  | some ids =>
    if ids.contains u.ID then (c, false)
    else (Checks.updateItem c k (ids ++ [u.ID]), true)
  | none => (c ++ [(k, [u.ID])], true)

/-- Modelled from the spec: Checks.Remove (package prchecklist, not under
src/) removes the user from the item's checked-by set and reports whether
state changed; "Removing a user from an item that does not contain them is a
no-op (returns unchanged)". -/
def Checks.Remove (c : Checks) (k : String) (u : GitHubUser) : Checks × Bool :=
  match Checks.lookupItem c k with
  | some ids =>
    if ids.contains u.ID then (Checks.updateItem c k (ids.filter (fun i => i != u.ID)), true)
    else (c, false)
  | none => (c, false)

/-- Modelled from the spec: ChecklistRef (package prchecklist, not under
src/) is "a structured identifier (e.g. owner, repository, pull-request
number, and revision/stage marker)". -/
structure ChecklistRef where
  Owner : String
  Repo : String
  Number : Int
  Stage : String
  deriving DecidableEq

/-- Errors surfaced by the repository operations.  notFound models the
formatted "not found: user id=..." error of GetUsers, unmarshal a
json.Unmarshal decode failure, invalidRef a ChecklistRef validation failure,
and wrap ctx e models errors.Wrap(e, ctx). -/
inductive Err where
  | notFound (id : Int)
  | unmarshal
  | invalidRef
  | wrap (ctx : String) (e : Err)
  deriving DecidableEq

/-- Whether an error carries an errors.Wrap operation context. -/
def Err.isWrapped : Err → Bool
  | Err.wrap _ _ => true
  | _ => false

/-- Modelled from the spec: ChecklistRef.Validate (package prchecklist, not
under src/) is the "validation predicate (non-empty required fields,
well-formed numeric fields)"; failure is the InvalidReference error. -/
def ChecklistRef.Validate (r : ChecklistRef) : Option Err :=
  if r.Owner = "" ∨ r.Repo = "" ∨ r.Number ≤ 0 then some Err.invalidRef else none

/-- Decimal string form of an identifier, as strconv.FormatInt(id, 10). -/
def formatInt (i : Int) : String := toString i

/-- Modelled from the spec: the canonical string of a ChecklistRef (its Go
String method, package prchecklist, not under src/), a deterministic storage
key of the shape owner/repo#number@stage. -/
def ChecklistRef.toKeyString (r : ChecklistRef) : String :=
  r.Owner ++ "/" ++ r.Repo ++ "#" ++ toString r.Number ++ "@" ++ r.Stage

/-- Stored byte values: a valid encoding of a user record, a valid encoding
of a checks mapping, or bytes that decode as neither. -/
inductive Data where
  | userData (u : GitHubUser)
  | checksData (c : Checks)
  | corrupt (tag : Nat)
  deriving DecidableEq

/-- json.Marshal of a user record (total on these records). -/
def encodeUser (u : GitHubUser) : Data := Data.userData u

/-- json.Unmarshal of stored bytes into a user record. -/
def decodeUser : Data → Option GitHubUser
  | Data.userData u => some u
  | _ => none

/-- json.Marshal of a checks mapping (total on these records). -/
def encodeChecks (c : Checks) : Data := Data.checksData c

/-- json.Unmarshal of stored bytes into a checks mapping. -/
def decodeChecks : Data → Option Checks
  | Data.checksData c => some c
  | _ => none

/-- A bolt bucket: an association of string keys to stored values. -/
abbrev Bucket := List (String × Data)

/-- Bucket.Get: the value stored under a key, nil (none) when absent. -/
def Bucket.get : Bucket → String → Option Data
  | [], _ => none
  | (k0, v) :: rest, k => if k0 = k then some v else Bucket.get rest k

/-- Bucket.Put: store a value under a key, overwriting an existing entry. -/
def Bucket.put : Bucket → String → Data → Bucket
  | [], k, v => [(k, v)]
  | (k0, v0) :: rest, k, v =>
    if k0 = k then (k, v) :: rest else (k0, v0) :: Bucket.put rest k v

/-- The bolt store state: the users bucket and the checks bucket, as created
by NewBoltCore. -/
structure Store where
  users : Bucket
  checks : Bucket
  deriving DecidableEq

/-- Models the datasource handling of NewBoltCore (bolt.go line 33): Go
evaluates datasource[len("bolt:"):], which panics when the string is shorter
than 5 (modelled as none); otherwise the first five characters are discarded
and the rest is the path handed to bolt.Open — the "bolt:" prefix itself is
never compared.  Go slices bytes where the model drops characters; the two
agree on ASCII datasources, which is what the claim is about. -/
def newBoltCorePath (datasource : String) : Option String :=
  if datasource.length < 5 then none
  else some (datasource.drop 5)

/-- AddUser (bolt.go lines 57-68): marshal the user and put it under the
decimal string of its identifier in the users bucket.  There is no
validation and no read step; marshalling a GitHubUser record never fails, so
absent an engine failure the operation succeeds. -/
def AddUser (s : Store) (u : GitHubUser) : Store × Option Err :=
  ({ s with users := Bucket.put s.users (formatInt u.ID) (encodeUser u) }, none)

/-- Map-overwrite insertion into the result mapping of GetUsers
(users[id] = user on a Go map). -/
def insertUser : List (Int × GitHubUser) → Int → GitHubUser → List (Int × GitHubUser)
  | [], id, u => [(id, u)]
  | (i0, u0) :: rest, id, u =>
    if i0 = id then (id, u) :: rest else (i0, u0) :: insertUser rest id u

/-- The loop body of GetUsers (bolt.go lines 76-87): for each id in order,
get the stored bytes (absent means the not-found error ends the view
function), decode them, and insert into the captured users map.  The map
mutated so far is returned alongside any error, exactly as the Go closure
leaves the captured map. -/
def getUsersLoop (s : Store) :
    List Int → List (Int × GitHubUser) → List (Int × GitHubUser) × Option Err
  | [], acc => (acc, none)
  | id :: rest, acc =>
    match Bucket.get s.users (formatInt id) with
    | none => (acc, some (Err.notFound id))
    | some d =>
      match decodeUser d with
      | none => (acc, some Err.unmarshal)
      | some u => getUsersLoop s rest (insertUser acc id u)

/-- GetUsers (bolt.go lines 71-93): run the lookup loop in one read
transaction and wrap any error with the operation name ("GetUsers");
errors.Wrap of nil stays nil. -/
def GetUsers (s : Store) (userIDs : List Int) :
    List (Int × GitHubUser) × Option Err :=
  let r := getUsersLoop s userIDs []
  (r.1, r.2.map (Err.wrap "GetUsers"))

/-- GetChecks (bolt.go lines 96-119): validate the reference (a validation
error is returned as-is), then read the canonical key from the checks
bucket; an absent entry leaves the checks value nil, which for a Go map is
observationally the empty mapping, modelled as the empty list; a decode
failure is wrapped with "GetChecks". -/
def GetChecks (s : Store) (clRef : ChecklistRef) : Checks × Option Err :=
  match ChecklistRef.Validate clRef with
  | some e => ([], some e)
  | none =>
    match Bucket.get s.checks (ChecklistRef.toKeyString clRef) with
    | none => ([], none)
    | some d =>
      match decodeChecks d with
      | none => ([], some (Err.wrap "GetChecks" Err.unmarshal))
      | some c => (c, none)

/-- The tail of the AddCheck write transaction (bolt.go lines 141-155):
apply Checks.Add to the decoded mapping (nil replaced by the empty mapping);
if nothing changed, return without writing; otherwise marshal the updated
mapping and put it back under the same key. -/
def addCheckTx (s : Store) (dbKey : String) (c : Checks) (key : String)
    (user : GitHubUser) : Store × Option Err :=
  let r := Checks.Add c key user
  if r.2 then ({ s with checks := Bucket.put s.checks dbKey (encodeChecks r.1) }, none)
  else (s, none)

/-- AddCheck (bolt.go lines 122-156): validate the reference (a validation
error is returned as-is), then in one write transaction read the stored
bytes under the canonical key, decode them (a decode failure aborts the
transaction, returning the unmarshal error unwrapped, with no write
applied), and run the add mutation. -/
def AddCheck (s : Store) (clRef : ChecklistRef) (key : String)
    (user : GitHubUser) : Store × Option Err :=
  match ChecklistRef.Validate clRef with
  | some e => (s, some e)
  | none =>
    match Bucket.get s.checks (ChecklistRef.toKeyString clRef) with
    | some d =>
      match decodeChecks d with
      | none => (s, some Err.unmarshal)
      | some c => addCheckTx s (ChecklistRef.toKeyString clRef) c key user
    | none => addCheckTx s (ChecklistRef.toKeyString clRef) [] key user

/-- The tail of the RemoveCheck write transaction (bolt.go lines 178-192),
symmetric to addCheckTx with the remove mutation. -/
def removeCheckTx (s : Store) (dbKey : String) (c : Checks) (key : String)
    (user : GitHubUser) : Store × Option Err :=
  let r := Checks.Remove c key user
  if r.2 then ({ s with checks := Bucket.put s.checks dbKey (encodeChecks r.1) }, none)
  else (s, none)

/-- RemoveCheck (bolt.go lines 159-193): same validation and transactional
read-decode-mutate-write pattern as AddCheck, with the remove mutation. -/
def RemoveCheck (s : Store) (clRef : ChecklistRef) (key : String)
    (user : GitHubUser) : Store × Option Err :=
  match ChecklistRef.Validate clRef with
  | some e => (s, some e)
  | none =>
    match Bucket.get s.checks (ChecklistRef.toKeyString clRef) with
    | some d =>
      match decodeChecks d with
      | none => (s, some Err.unmarshal)
      | some c => removeCheckTx s (ChecklistRef.toKeyString clRef) c key user
    | none => removeCheckTx s (ChecklistRef.toKeyString clRef) [] key user

/-- The checks mapping an AddCheck/RemoveCheck write transaction operates on
for a given reference: an absent entry is the empty mapping, stored bytes
must decode (none means the transaction aborts with the unmarshal error). -/
def txChecks (s : Store) (r : ChecklistRef) : Option Checks :=
  match Bucket.get s.checks (ChecklistRef.toKeyString r) with
  | none => some []
  | some d => decodeChecks d

/-- Putting a value into a bucket makes it the value stored under that key. -/
theorem Bucket.get_put_self (b : Bucket) (k : String) (v : Data) :
    Bucket.get (Bucket.put b k v) k = some v := by
  induction b with
  | nil => simp [Bucket.put, Bucket.get]
  | cons hd tl ih =>
    obtain ⟨k0, v0⟩ := hd
    by_cases h : k0 = k
    · simp [Bucket.put, h, Bucket.get]
    · simp [Bucket.put, h, Bucket.get, ih]

/-- Appending a fresh item entry makes it found by lookup. -/
theorem Checks.lookupItem_append (c : Checks) (k : String) (ids : List Int)
    (h : Checks.lookupItem c k = none) :
    Checks.lookupItem (c ++ [(k, ids)]) k = some ids := by
  induction c with
  | nil => simp [Checks.lookupItem]
  | cons hd tl ih =>
    obtain ⟨k0, ids0⟩ := hd
    by_cases hk : k0 = k
    · simp [Checks.lookupItem, hk] at h
    · simp only [Checks.lookupItem, if_neg hk] at h
      simp only [List.cons_append, Checks.lookupItem, if_neg hk]
      exact ih h

/-- Updating an existing item entry replaces the value found by lookup. -/
theorem Checks.lookupItem_updateItem (c : Checks) (k : String)
    (ids0 ids : List Int) (h : Checks.lookupItem c k = some ids0) :
    Checks.lookupItem (Checks.updateItem c k ids) k = some ids := by
  induction c with
  | nil => simp [Checks.lookupItem] at h
  | cons hd tl ih =>
    obtain ⟨k1, ids1⟩ := hd
    by_cases hk : k1 = k
    · simp [Checks.lookupItem, Checks.updateItem, hk]
    · simp only [Checks.lookupItem, if_neg hk] at h
      simp only [Checks.updateItem, if_neg hk]
      simp only [Checks.lookupItem, if_neg hk]
      exact ih h

/-- After the add mutation, the user is in the item's checked-by set. -/
theorem Checks.containsCheck_Add (c : Checks) (k : String) (u : GitHubUser) :
    Checks.containsCheck (Checks.Add c k u).1 k u.ID = true := by
  unfold Checks.Add Checks.containsCheck
  cases hl : Checks.lookupItem c k with
  | none =>
    simp [hl, Checks.lookupItem_append c k _ hl]
  | some ids =>
    by_cases hmem : u.ID ∈ ids
    · simp [hl, hmem]
    · simp [hl, hmem, Checks.lookupItem_updateItem c k ids _ hl]

/-- The add mutation on an already-present user reports unchanged. -/
theorem Checks.Add_of_contains (c : Checks) (k : String) (u : GitHubUser)
    (h : Checks.containsCheck c k u.ID = true) :
    Checks.Add c k u = (c, false) := by
  unfold Checks.containsCheck at h
  unfold Checks.Add
  cases hl : Checks.lookupItem c k with
  | none => rw [hl] at h; simp at h
  | some ids =>
    rw [hl] at h
    simp only [Option.getD_some] at h
    simp at h
    simp [hl, h]

/-- After the remove mutation, the user is not in the item's checked-by set. -/
theorem Checks.containsCheck_Remove (c : Checks) (k : String) (u : GitHubUser) :
    Checks.containsCheck (Checks.Remove c k u).1 k u.ID = false := by
  unfold Checks.Remove Checks.containsCheck
  cases hl : Checks.lookupItem c k with
  | none => simp [hl]
  | some ids =>
    by_cases hmem : u.ID ∈ ids
    · simp [hl, hmem, Checks.lookupItem_updateItem c k ids _ hl,
        List.mem_filter]
    · simp [hl, hmem]

/-- The remove mutation on an absent user reports unchanged. -/
theorem Checks.Remove_of_not_contains (c : Checks) (k : String)
    (u : GitHubUser) (h : Checks.containsCheck c k u.ID = false) :
    Checks.Remove c k u = (c, false) := by
  unfold Checks.containsCheck at h
  unfold Checks.Remove
  cases hl : Checks.lookupItem c k with
  | none => simp [hl]
  | some ids =>
    rw [hl] at h
    simp only [Option.getD_some] at h
    simp at h
    simp [hl, h]

/-- The add mutation on a not-yet-present user reports changed. -/
theorem Checks.Add_snd_of_not_contains (c : Checks) (k : String)
    (u : GitHubUser) (h : Checks.containsCheck c k u.ID = false) :
    (Checks.Add c k u).2 = true := by
  unfold Checks.containsCheck at h
  unfold Checks.Add
  cases hl : Checks.lookupItem c k with
  | none => simp [hl]
  | some ids =>
    rw [hl] at h
    simp only [Option.getD_some] at h
    simp at h
    simp [hl, h]

/-- The remove mutation on a present user reports changed. -/
theorem Checks.Remove_snd_of_contains (c : Checks) (k : String)
    (u : GitHubUser) (h : Checks.containsCheck c k u.ID = true) :
    (Checks.Remove c k u).2 = true := by
  unfold Checks.containsCheck at h
  unfold Checks.Remove
  cases hl : Checks.lookupItem c k with
  | none => rw [hl] at h; simp at h
  | some ids =>
    rw [hl] at h
    simp only [Option.getD_some] at h
    simp at h
    simp [hl, h]

/-- The write-transaction tail of AddCheck, with its let binding expanded. -/
theorem addCheckTx_eq (s : Store) (dbKey k : String) (c : Checks)
    (u : GitHubUser) :
    addCheckTx s dbKey c k u =
      if (Checks.Add c k u).2 then
        ({ s with checks :=
            Bucket.put s.checks dbKey (encodeChecks (Checks.Add c k u).1) },
          none)
      else (s, none) := rfl

/-- The write-transaction tail of RemoveCheck, with its let binding
expanded. -/
theorem removeCheckTx_eq (s : Store) (dbKey k : String) (c : Checks)
    (u : GitHubUser) :
    removeCheckTx s dbKey c k u =
      if (Checks.Remove c k u).2 then
        ({ s with checks :=
            Bucket.put s.checks dbKey (encodeChecks (Checks.Remove c k u).1) },
          none)
      else (s, none) := rfl

/-- On a valid reference whose transaction mapping reads back as c, AddCheck
is the write transaction applied to c under the canonical key. -/
theorem AddCheck_eq_tx (s : Store) (r : ChecklistRef) (k : String)
    (u : GitHubUser) (c : Checks) (hv : ChecklistRef.Validate r = none)
    (hc : txChecks s r = some c) :
    AddCheck s r k u = addCheckTx s (ChecklistRef.toKeyString r) c k u := by
  unfold AddCheck
  rw [hv]
  unfold txChecks at hc
  cases hg : Bucket.get s.checks (ChecklistRef.toKeyString r) with
  | none =>
    rw [hg] at hc
    simp at hc
    subst hc
    rfl
  | some d =>
    rw [hg] at hc
    simp at hc
    simp [hg, hc]

/-- On a valid reference whose transaction mapping reads back as c,
RemoveCheck is the write transaction applied to c under the canonical
key. -/
theorem RemoveCheck_eq_tx (s : Store) (r : ChecklistRef) (k : String)
    (u : GitHubUser) (c : Checks) (hv : ChecklistRef.Validate r = none)
    (hc : txChecks s r = some c) :
    RemoveCheck s r k u = removeCheckTx s (ChecklistRef.toKeyString r) c k u := by
  unfold RemoveCheck
  rw [hv]
  unfold txChecks at hc
  cases hg : Bucket.get s.checks (ChecklistRef.toKeyString r) with
  | none =>
    rw [hg] at hc
    simp at hc
    subst hc
    rfl
  | some d =>
    rw [hg] at hc
    simp at hc
    simp [hg, hc]

/-- The store after a committed write of an encoded checks mapping under a
reference's canonical key. -/
def putChecks (s : Store) (r : ChecklistRef) (c : Checks) : Store :=
  { s with checks :=
      Bucket.put s.checks (ChecklistRef.toKeyString r) (encodeChecks c) }

/-- After writing an encoded mapping under a reference's key, the write
transaction for that reference reads that mapping back. -/
theorem txChecks_put (s : Store) (r : ChecklistRef) (c : Checks) :
    txChecks (putChecks s r c) r = some c := by
  unfold txChecks putChecks
  simp [Bucket.get_put_self, decodeChecks, encodeChecks]

/-- After writing an encoded mapping under a valid reference's key,
GetChecks returns that mapping with no error. -/
theorem GetChecks_put (s : Store) (r : ChecklistRef) (c : Checks)
    (hv : ChecklistRef.Validate r = none) :
    GetChecks (putChecks s r c) r = (c, none) := by
  unfold GetChecks putChecks
  rw [hv]
  simp [Bucket.get_put_self, decodeChecks, encodeChecks]

/-- GetChecks on a valid reference whose stored bytes decode returns the
decoded mapping with no error. -/
theorem GetChecks_of_stored (s : Store) (r : ChecklistRef) (d : Data)
    (c : Checks) (hv : ChecklistRef.Validate r = none)
    (hg : Bucket.get s.checks (ChecklistRef.toKeyString r) = some d)
    (hd : decodeChecks d = some c) :
    GetChecks s r = (c, none) := by
  unfold GetChecks
  rw [hv]
  simp [hg, hd]

/-- AddCheck on a valid reference whose read-back mapping already contains
the user completes without writing: the store is returned as given. -/
theorem AddCheck_noop (s : Store) (r : ChecklistRef) (k : String)
    (u : GitHubUser) (c : Checks) (hv : ChecklistRef.Validate r = none)
    (hc : txChecks s r = some c)
    (hmem : Checks.containsCheck c k u.ID = true) :
    AddCheck s r k u = (s, none) := by
  rw [AddCheck_eq_tx s r k u c hv hc, addCheckTx_eq,
    Checks.Add_of_contains c k u hmem]
  rfl

/-- AddCheck on a valid reference whose read-back mapping does not contain
the user writes back the mutated mapping and succeeds. -/
theorem AddCheck_writes (s : Store) (r : ChecklistRef) (k : String)
    (u : GitHubUser) (c : Checks) (hv : ChecklistRef.Validate r = none)
    (hc : txChecks s r = some c)
    (hmem : Checks.containsCheck c k u.ID = false) :
    AddCheck s r k u = (putChecks s r (Checks.Add c k u).1, none) := by
  rw [AddCheck_eq_tx s r k u c hv hc, addCheckTx_eq,
    Checks.Add_snd_of_not_contains c k u hmem]
  rfl

/-- RemoveCheck on a valid reference whose read-back mapping does not
contain the user completes without writing: the store is returned as
given. -/
theorem RemoveCheck_noop (s : Store) (r : ChecklistRef) (k : String)
    (u : GitHubUser) (c : Checks) (hv : ChecklistRef.Validate r = none)
    (hc : txChecks s r = some c)
    (hmem : Checks.containsCheck c k u.ID = false) :
    RemoveCheck s r k u = (s, none) := by
  rw [RemoveCheck_eq_tx s r k u c hv hc, removeCheckTx_eq,
    Checks.Remove_of_not_contains c k u hmem]
  rfl

/-- RemoveCheck on a valid reference whose read-back mapping contains the
user writes back the mutated mapping and succeeds. -/
theorem RemoveCheck_writes (s : Store) (r : ChecklistRef) (k : String)
    (u : GitHubUser) (c : Checks) (hv : ChecklistRef.Validate r = none)
    (hc : txChecks s r = some c)
    (hmem : Checks.containsCheck c k u.ID = true) :
    RemoveCheck s r k u = (putChecks s r (Checks.Remove c k u).1, none) := by
  rw [RemoveCheck_eq_tx s r k u c hv hc, removeCheckTx_eq,
    Checks.Remove_snd_of_contains c k u hmem]
  rfl

/-- Fixture: a user with identifier 1. -/
def u1 : GitHubUser := ⟨1, "alice", "a"⟩

/-- Fixture: a user with identifier 3. -/
def u3 : GitHubUser := ⟨3, "carol", "c"⟩

/-- Fixture: a structurally valid reference. -/
def refA : ChecklistRef := ⟨"o", "r", 1, "s"⟩

/-- Fixture: a reference with an empty required field. -/
def badRef : ChecklistRef := ⟨"", "r", 1, "s"⟩

/-- Fixture: the empty store. -/
def store0 : Store := ⟨[], []⟩

/-- Fixture: a store holding users 1 and 3 and no checks. -/
def storeC1 : Store :=
  ⟨[(formatInt 1, encodeUser u1), (formatInt 3, encodeUser u3)], []⟩

/-- Fixture: a store where item "item" of refA is checked by user 1. -/
def storeChk : Store :=
  ⟨[], [(ChecklistRef.toKeyString refA, encodeChecks [("item", [1])])]⟩

/-- Fixture: a store holding undecodable bytes under refA's key. -/
def storeBad : Store :=
  ⟨[], [(ChecklistRef.toKeyString refA, Data.corrupt 0)]⟩

/-- The GetUsers loop finishes without error on a list of identifiers that
are all stored with decodable records. -/
theorem getUsersLoop_ok (s : Store) (pre : List Int)
    (hpre : ∀ j ∈ pre, ∃ v, Bucket.get s.users (formatInt j) = some v ∧
      (decodeUser v).isSome = true) :
    ∀ acc : List (Int × GitHubUser), (getUsersLoop s pre acc).2 = none := by
  induction pre with
  | nil => intro acc; rfl
  | cons j tl ih =>
    intro acc
    obtain ⟨v, hv, hd⟩ := hpre j (by simp)
    obtain ⟨u, hu⟩ := Option.isSome_iff_exists.mp hd
    have htl : ∀ j' ∈ tl, ∃ v, Bucket.get s.users (formatInt j') = some v ∧
        (decodeUser v).isSome = true := fun j' hj' => hpre j' (by simp [hj'])
    simp only [getUsersLoop, hv, hu]
    exact ih htl (insertUser acc j u)

/-- The GetUsers loop over a prefix of stored, decodable identifiers
continues on the accumulated mapping. -/
theorem getUsersLoop_append (s : Store) (pre : List Int)
    (hpre : ∀ j ∈ pre, ∃ v, Bucket.get s.users (formatInt j) = some v ∧
      (decodeUser v).isSome = true) :
    ∀ (rest : List Int) (acc : List (Int × GitHubUser)),
      getUsersLoop s (pre ++ rest) acc =
        getUsersLoop s rest (getUsersLoop s pre acc).1 := by
  induction pre with
  | nil => intro rest acc; rfl
  | cons j tl ih =>
    intro rest acc
    obtain ⟨v, hv, hd⟩ := hpre j (by simp)
    obtain ⟨u, hu⟩ := Option.isSome_iff_exists.mp hd
    have htl : ∀ j' ∈ tl, ∃ v, Bucket.get s.users (formatInt j') = some v ∧
        (decodeUser v).isSome = true := fun j' hj' => hpre j' (by simp [hj'])
    simp only [List.cons_append, getUsersLoop, hv, hu]
    exact ih htl rest (insertUser acc j u)

/-- C10: GetUsers with an empty identifier list returns the empty mapping
and no error, on every store, without requiring any stored record. -/
theorem C10_getUsers_empty (s : Store) : GetUsers s [] = ([], none) := rfl

/-- C9: AddUser performs no validation of the user identifier: for every
store and user, including identifier 0 or a negative identifier, it
succeeds, and the record is stored under the decimal string form of the
identifier, from where it decodes back to the same user. -/
theorem C9_addUser_no_validation (s : Store) (u : GitHubUser) :
    (AddUser s u).2 = none ∧
    Bucket.get (AddUser s u).1.users (formatInt u.ID) = some (encodeUser u) ∧
    decodeUser (encodeUser u) = some u := by
  refine ⟨rfl, ?_, rfl⟩
  exact Bucket.get_put_self s.users (formatInt u.ID) (encodeUser u)

/-- C4: for every valid reference with no entry under its canonical key
(never written), GetChecks returns the empty CheckSet and no error. -/
theorem C4_fresh_reference_empty (s : Store) (r : ChecklistRef)
    (hv : ChecklistRef.Validate r = none)
    (habs : Bucket.get s.checks (ChecklistRef.toKeyString r) = none) :
    GetChecks s r = ([], none) := by
  unfold GetChecks
  rw [hv]
  simp [habs]

/-- Witness for C4 at the empty store and a concrete valid reference. -/
theorem C4_witness : GetChecks store0 refA = ([], none) :=
  C4_fresh_reference_empty store0 refA (by decide) rfl

/-- C5: with a structurally invalid reference, GetChecks, AddCheck and
RemoveCheck fail with the InvalidReference error (the only error validation
produces) and the stored state, including every pre-existing key, is
unchanged: AddCheck and RemoveCheck return the store exactly as given, and
GetChecks performs no write at all. -/
theorem C5_validation_precedes_storage (s : Store) (r : ChecklistRef)
    (k : String) (u : GitHubUser) (e : Err)
    (he : ChecklistRef.Validate r = some e) :
    e = Err.invalidRef ∧
    GetChecks s r = ([], some Err.invalidRef) ∧
    AddCheck s r k u = (s, some Err.invalidRef) ∧
    RemoveCheck s r k u = (s, some Err.invalidRef) := by
  have heq : e = Err.invalidRef := by
    unfold ChecklistRef.Validate at he
    by_cases hcond : r.Owner = "" ∨ r.Repo = "" ∨ r.Number ≤ 0
    · rw [if_pos hcond] at he
      exact (Option.some_inj.mp he).symm
    · rw [if_neg hcond] at he
      cases he
  subst heq
  refine ⟨rfl, ?_, ?_, ?_⟩
  · unfold GetChecks; rw [he]
  · unfold AddCheck; rw [he]
  · unfold RemoveCheck; rw [he]

/-- Witness for C5 at the empty store and a reference with an empty owner
field. -/
theorem C5_witness :
    Err.invalidRef = Err.invalidRef ∧
    GetChecks store0 badRef = ([], some Err.invalidRef) ∧
    AddCheck store0 badRef "k" u1 = (store0, some Err.invalidRef) ∧
    RemoveCheck store0 badRef "k" u1 = (store0, some Err.invalidRef) :=
  C5_validation_precedes_storage store0 badRef "k" u1 Err.invalidRef (by decide)

/-- C6: for a valid reference whose stored bytes fail to decode, AddCheck
and RemoveCheck abort the write transaction with the unmarshal (corruption)
error and return the previously committed store untouched: no partial write
is visible on the error path. -/
theorem C6_corrupt_aborts (s : Store) (r : ChecklistRef) (k : String)
    (u : GitHubUser) (d : Data)
    (hv : ChecklistRef.Validate r = none)
    (hg : Bucket.get s.checks (ChecklistRef.toKeyString r) = some d)
    (hcor : decodeChecks d = none) :
    AddCheck s r k u = (s, some Err.unmarshal) ∧
    RemoveCheck s r k u = (s, some Err.unmarshal) := by
  constructor
  · unfold AddCheck; rw [hv]; simp [hg, hcor]
  · unfold RemoveCheck; rw [hv]; simp [hg, hcor]

/-- Witness for C6 at a store holding undecodable bytes under the
reference's key. -/
theorem C6_witness :
    AddCheck storeBad refA "k" u1 = (storeBad, some Err.unmarshal) ∧
    RemoveCheck storeBad refA "k" u1 = (storeBad, some Err.unmarshal) :=
  C6_corrupt_aborts storeBad refA "k" u1 (Data.corrupt 0)
    (by decide) (by decide) rfl

/-- C8: the NewBoltCore datasource handling panics for every datasource
shorter than five characters, and accepts every datasource of five or more
characters, whatever its prefix, discarding the first five characters. -/
theorem C8_newBoltCore_datasource (d : String) :
    (d.length < 5 → newBoltCorePath d = none) ∧
    (5 ≤ d.length → newBoltCorePath d = some (d.drop 5)) := by
  constructor
  · intro h; unfold newBoltCorePath; rw [if_pos h]
  · intro h; unfold newBoltCorePath; rw [if_neg (by omega)]

/-- Witness for C8: a short datasource panics; a datasource that does not
start with the expected prefix is accepted, its first five characters
discarded. -/
theorem C8_witness :
    newBoltCorePath "abc" = none ∧ newBoltCorePath "notbolt:x" = some "lt:x" := by
  constructor
  · exact (C8_newBoltCore_datasource "abc").1 (by decide)
  · exact ((C8_newBoltCore_datasource "notbolt:x").2 (by decide)).trans (by decide)

/-- C2: on a valid reference whose stored checks read back as c, AddCheck
with the user already in the item's checked-by set and RemoveCheck with the
user not in it are no-ops — the mutation reports unchanged (false) and the
call returns the store byte-identical with no error; and calling AddCheck a
second time returns the once-written store unchanged, so two calls yield the
same stored CheckSet as one. -/
theorem C2_idempotent_noop (s : Store) (r : ChecklistRef) (k : String)
    (u : GitHubUser) (c : Checks)
    (hv : ChecklistRef.Validate r = none)
    (hc : txChecks s r = some c) :
    (Checks.containsCheck c k u.ID = true →
      Checks.Add c k u = (c, false) ∧ AddCheck s r k u = (s, none)) ∧
    (Checks.containsCheck c k u.ID = false →
      Checks.Remove c k u = (c, false) ∧ RemoveCheck s r k u = (s, none)) ∧
    AddCheck (AddCheck s r k u).1 r k u = ((AddCheck s r k u).1, none) := by
  refine ⟨?_, ?_, ?_⟩
  · intro hmem
    exact ⟨Checks.Add_of_contains c k u hmem,
      AddCheck_noop s r k u c hv hc hmem⟩
  · intro hmem
    exact ⟨Checks.Remove_of_not_contains c k u hmem,
      RemoveCheck_noop s r k u c hv hc hmem⟩
  · by_cases hmem : Checks.containsCheck c k u.ID = true
    · have h1 := AddCheck_noop s r k u c hv hc hmem
      rw [h1]
      exact h1
    · have hmem' : Checks.containsCheck c k u.ID = false := by
        revert hmem; cases Checks.containsCheck c k u.ID <;> simp
      have h1 := AddCheck_writes s r k u c hv hc hmem'
      rw [h1]
      exact AddCheck_noop (putChecks s r (Checks.Add c k u).1) r k u
        (Checks.Add c k u).1 hv (txChecks_put s r (Checks.Add c k u).1)
        (Checks.containsCheck_Add c k u)

/-- Witness for C2 at a store where item "item" of refA is already checked
by user 1: the second add reports unchanged and does not touch the store. -/
theorem C2_witness :
    Checks.Add [("item", [1])] "item" u1 = ([("item", [1])], false) ∧
    AddCheck storeChk refA "item" u1 = (storeChk, none) :=
  (C2_idempotent_noop storeChk refA "item" u1 [("item", [1])]
    (by decide) (by decide)).1 (by decide)

/-- C3: round trip — on a valid reference whose stored checks read back as
c, AddCheck succeeds and a following GetChecks shows the user in the item's
checked-by set; a subsequent RemoveCheck succeeds and GetChecks then shows
the user no longer in it. -/
theorem C3_round_trip (s : Store) (r : ChecklistRef) (k : String)
    (u : GitHubUser) (c : Checks)
    (hv : ChecklistRef.Validate r = none)
    (hc : txChecks s r = some c) :
    (AddCheck s r k u).2 = none ∧
    (GetChecks (AddCheck s r k u).1 r).2 = none ∧
    Checks.containsCheck (GetChecks (AddCheck s r k u).1 r).1 k u.ID = true ∧
    (RemoveCheck (AddCheck s r k u).1 r k u).2 = none ∧
    (GetChecks (RemoveCheck (AddCheck s r k u).1 r k u).1 r).2 = none ∧
    Checks.containsCheck
      (GetChecks (RemoveCheck (AddCheck s r k u).1 r k u).1 r).1 k u.ID
      = false := by
  by_cases hmem : Checks.containsCheck c k u.ID = true
  · have h1 := AddCheck_noop s r k u c hv hc hmem
    have hstored : ∃ d,
        Bucket.get s.checks (ChecklistRef.toKeyString r) = some d ∧
        decodeChecks d = some c := by
      unfold txChecks at hc
      cases hg : Bucket.get s.checks (ChecklistRef.toKeyString r) with
      | none =>
        rw [hg] at hc
        simp at hc
        subst hc
        simp [Checks.containsCheck, Checks.lookupItem] at hmem
      | some d =>
        rw [hg] at hc
        exact ⟨d, rfl, hc⟩
    obtain ⟨d, hg, hd⟩ := hstored
    have hGet : GetChecks s r = (c, none) := GetChecks_of_stored s r d c hv hg hd
    have h2 := RemoveCheck_writes s r k u c hv hc hmem
    have hGet2 := GetChecks_put s r (Checks.Remove c k u).1 hv
    simp [h1, h2, hGet, hGet2, hmem, Checks.containsCheck_Remove c k u]
  · have hmem' : Checks.containsCheck c k u.ID = false := by
      revert hmem; cases Checks.containsCheck c k u.ID <;> simp
    have h1 := AddCheck_writes s r k u c hv hc hmem'
    have hGet1 := GetChecks_put s r (Checks.Add c k u).1 hv
    have h2 := RemoveCheck_writes (putChecks s r (Checks.Add c k u).1) r k u
      (Checks.Add c k u).1 hv (txChecks_put s r (Checks.Add c k u).1)
      (Checks.containsCheck_Add c k u)
    have hGet2 := GetChecks_put (putChecks s r (Checks.Add c k u).1) r
      (Checks.Remove (Checks.Add c k u).1 k u).1 hv
    simp [h1, h2, hGet1, hGet2, Checks.containsCheck_Add c k u,
      Checks.containsCheck_Remove (Checks.Add c k u).1 k u]

/-- Witness for C3 at the empty store and a concrete valid reference. -/
theorem C3_witness :
    (AddCheck store0 refA "item" u1).2 = none ∧
    (GetChecks (AddCheck store0 refA "item" u1).1 refA).2 = none ∧
    Checks.containsCheck (GetChecks (AddCheck store0 refA "item" u1).1 refA).1
      "item" u1.ID = true ∧
    (RemoveCheck (AddCheck store0 refA "item" u1).1 refA "item" u1).2 = none ∧
    (GetChecks
      (RemoveCheck (AddCheck store0 refA "item" u1).1 refA "item" u1).1
      refA).2 = none ∧
    Checks.containsCheck
      (GetChecks
        (RemoveCheck (AddCheck store0 refA "item" u1).1 refA "item" u1).1
        refA).1 "item" u1.ID = false :=
  C3_round_trip store0 refA "item" u1 [] (by decide) rfl

/-- C1 counterexample: with users 1 and 3 stored and 2 absent, GetUsers on
[1, 2, 3] fails with the wrapped not-found error for 2 — but the mapping
returned alongside the error already holds user 1, so a partial mapping of
the identifiers found before the missing one is returned, contrary to the
claim. -/
theorem C1_counterexample :
    GetUsers storeC1 [1, 2, 3] =
      ([(1, u1)], some (Err.wrap "GetUsers" (Err.notFound 2))) ∧
    (GetUsers storeC1 [1, 2, 3]).1 ≠ [] := by
  constructor
  · decide
  · decide

/-- C1 amended: GetUsers fails fast with the wrapped not-found error naming
the first missing identifier (identifiers after it are never consulted), and
the mapping returned alongside the error is exactly the mapping of the
identifiers before the missing one. -/
theorem C1_fail_fast (s : Store) (pre post : List Int) (id0 : Int)
    (hpre : ∀ j ∈ pre, ∃ v, Bucket.get s.users (formatInt j) = some v ∧
      (decodeUser v).isSome = true)
    (hmiss : Bucket.get s.users (formatInt id0) = none) :
    (GetUsers s (pre ++ id0 :: post)).2 =
      some (Err.wrap "GetUsers" (Err.notFound id0)) ∧
    (GetUsers s (pre ++ id0 :: post)).1 = (GetUsers s pre).1 := by
  have happ := getUsersLoop_append s pre hpre (id0 :: post) []
  have heq : GetUsers s (pre ++ id0 :: post) =
      ((getUsersLoop s (pre ++ id0 :: post) []).1,
        ((getUsersLoop s (pre ++ id0 :: post) []).2).map (Err.wrap "GetUsers")) :=
    rfl
  have hstep : getUsersLoop s (id0 :: post) (getUsersLoop s pre []).1 =
      ((getUsersLoop s pre []).1, some (Err.notFound id0)) := by
    simp only [getUsersLoop, hmiss]
  rw [heq, happ, hstep]
  exact ⟨rfl, rfl⟩

/-- Witness for C1 amended at the store holding users 1 and 3. -/
theorem C1_fail_fast_witness :
    (GetUsers storeC1 ([1] ++ 2 :: [3])).2 =
      some (Err.wrap "GetUsers" (Err.notFound 2)) ∧
    (GetUsers storeC1 ([1] ++ 2 :: [3])).1 = (GetUsers storeC1 [1]).1 :=
  C1_fail_fast storeC1 [1] [3] 2
    (by
      intro j hj
      simp at hj
      subst hj
      exact ⟨encodeUser u1, by decide, by decide⟩)
    (by decide)

/-- C7 counterexample: AddCheck with an invalid reference returns the
validation error with no operation-name wrap, so not every error returned by
the four operations is wrapped with context identifying the operation. -/
theorem C7_counterexample :
    (AddCheck store0 badRef "k" u1).2 = some Err.invalidRef ∧
    Err.isWrapped Err.invalidRef = false := by
  constructor
  · decide
  · decide

/-- C7 amended: every error from GetUsers, and every storage-path error from
GetChecks, is returned wrapped with the operation name; AddUser cannot fail;
AddCheck and RemoveCheck return their validation and decode errors
unwrapped, as does GetChecks for a validation failure; no error is silently
swallowed — every failing path surfaces as some error. -/
theorem C7_error_propagation :
    (∀ (s : Store) (ids : List Int) (e : Err),
      (GetUsers s ids).2 = some e → ∃ e0, e = Err.wrap "GetUsers" e0) ∧
    (∀ (s : Store) (r : ChecklistRef) (e : Err),
      ChecklistRef.Validate r = none → (GetChecks s r).2 = some e →
        e = Err.wrap "GetChecks" Err.unmarshal) ∧
    (∀ (s : Store) (u : GitHubUser), (AddUser s u).2 = none) ∧
    (∀ (s : Store) (r : ChecklistRef) (k : String) (u : GitHubUser),
      ChecklistRef.Validate r = some Err.invalidRef →
        (AddCheck s r k u).2 = some Err.invalidRef ∧
        (RemoveCheck s r k u).2 = some Err.invalidRef) ∧
    (∀ (s : Store) (r : ChecklistRef) (k : String) (u : GitHubUser) (d : Data),
      ChecklistRef.Validate r = none →
      Bucket.get s.checks (ChecklistRef.toKeyString r) = some d →
      decodeChecks d = none →
        (AddCheck s r k u).2 = some Err.unmarshal ∧
        (RemoveCheck s r k u).2 = some Err.unmarshal) := by
  refine ⟨?_, ?_, ?_, ?_, ?_⟩
  · intro s ids e h
    have heq : (GetUsers s ids).2 =
        ((getUsersLoop s ids []).2).map (Err.wrap "GetUsers") := rfl
    rw [heq] at h
    cases hl : (getUsersLoop s ids []).2 with
    | none => rw [hl] at h; cases h
    | some e0 =>
      rw [hl] at h
      simp at h
      exact ⟨e0, h.symm⟩
  · intro s r e hval h
    unfold GetChecks at h
    rw [hval] at h
    cases hg : Bucket.get s.checks (ChecklistRef.toKeyString r) with
    | none => simp [hg] at h
    | some d =>
      cases hd : decodeChecks d with
      | none =>
        simp [hg, hd] at h
        exact h.symm
      | some c => simp [hg, hd] at h
  · intro s u
    rfl
  · intro s r k u hval
    constructor
    · unfold AddCheck; rw [hval]
    · unfold RemoveCheck; rw [hval]
  · intro s r k u d hval hg hd
    constructor
    · unfold AddCheck; rw [hval]; simp [hg, hd]
    · unfold RemoveCheck; rw [hval]; simp [hg, hd]

/-- Witness for C7 amended: the error of a failing GetUsers call is wrapped
with the operation name. -/
theorem C7_witness :
    ∃ e0, Err.wrap "GetUsers" (Err.notFound 5) = Err.wrap "GetUsers" e0 :=
  C7_error_propagation.1 store0 [5]
    (Err.wrap "GetUsers" (Err.notFound 5)) (by decide)

end Prchecklist
